import Mathlib

/-!
Shallow embedding of `patchstarter.py` and `title_manager.py` from the
Patch-Starter-Script repository.

The scripts read a macOS application bundle's `Contents/Info.plist`, extract
metadata (with optional command-line overrides), and synthesize a JSON "patch"
record or a "full definition" record that wraps it.

Modelling conventions:
- Python dicts used as JSON documents become `JVal.obj` with an ordered
  association list (Python dicts preserve insertion order).
- The plist becomes an ordered association list of string keys to string
  values (`Plist`); `dict.get(key, default)` becomes `Plist.get`.
- `argparse` results become the `Args` structure; options with
  `default=""` are plain strings, options with default `None` are `Option`.
- Python truthiness tests (`x or y`, `if args.extension_attribute:`) are
  modelled by `pyOrStr` / `pyOrOpt` (empty string and `None` are falsy).
- File reads are passed in explicitly: the plist read result is an
  `Except String Plist` (error = the exception text), attachment reads are a
  function `String → Option (List Nat)` (bytes of the file, `none` =
  unreadable). `raise SystemExit(msg)` becomes `Except.error msg`.
- Clock and mtime reads (`datetime.now(...).isoformat()`,
  `datetime.fromtimestamp(os.path.getmtime(...)).isoformat()`) are passed in
  as the ISO strings `nowIso` / `mtimeIso`; the code appends `"Z"` to them.
-/

/-- JSON-like values: the shape of the Python dicts the scripts emit.
Object fields are an ordered association list, as in a Python dict. -/
inductive JVal where
  | str : String → JVal
  | bool : Bool → JVal
  | arr : List JVal → JVal
  | obj : List (String × JVal) → JVal
deriving Repr

/-- Look up a field of a JSON object (first occurrence), as `d[k]` would. -/
def JVal.field (j : JVal) (k : String) : Option JVal :=
  match j with
  | .obj kvs =>
    match kvs.find? (fun kv => kv.1 == k) with
    | some kv => some kv.2
    | none => none
  | _ => none

/-- The keys of a JSON object, in insertion order. -/
def JVal.objKeys (j : JVal) : List String :=
  match j with
  | .obj kvs => kvs.map (fun kv => kv.1)
  | _ => []

/-- An Info.plist, restricted to the string-valued keys the scripts read:
an ordered association list, standing for the parsed plist dict. -/
abbrev Plist := List (String × String)

/-- `info.get(key, default)` on the plist dict. -/
def Plist.get (p : Plist) (key dflt : String) : String :=
  match p.find? (fun kv => kv.1 == key) with
  | some kv => kv.2
  | none => dflt

/-- The value the plist declares for `key`, if any (`info.get(key)`). -/
def Plist.declares (p : Plist) (key : String) : Option String :=
  match p.find? (fun kv => kv.1 == key) with
  | some kv => some kv.2
  | none => none

/-- Python `a or b` for a string `a`: empty string is falsy. -/
def pyOrStr (a b : String) : String :=
  if a = "" then b else a

/-- Python `a or b` where `a` is an optional string (`None` and `""` falsy). -/
def pyOrOpt (a : Option String) (b : String) : String :=
  match a with
  | none => b
  | some s => if s = "" then b else s

/-- Python `str.replace(old, new)` on character lists, with explicit fuel
for structural recursion: scan left to right, replacing every
non-overlapping occurrence of `pat`. With `fuel ≥ length of the input` the
fuel never runs out. (Python's behaviour for an empty pattern is never
exercised by the scripts; here an empty pattern matches nowhere.) -/
def replaceFuel (pat rep : List Char) : Nat → List Char → List Char
  | _, [] => []
  | 0, s => s
  | fuel + 1, c :: cs =>
    if pat ≠ [] ∧ pat <+: c :: cs then
      rep ++ replaceFuel pat rep fuel ((c :: cs).drop pat.length)
    else
      c :: replaceFuel pat rep fuel cs

/-- Python `str.replace(old, new)` on character lists. -/
def replaceL (pat rep s : List Char) : List Char :=
  replaceFuel pat rep s.length s

/-- Python `s.replace(old, new)`. -/
def pyReplace (s pat rep : String) : String :=
  ⟨replaceL pat.data rep.data s.data⟩

/-- Python `s.lower()` (ASCII range, as all names the scripts handle). -/
def pyLower (s : String) : String :=
  ⟨s.data.map Char.toLower⟩

/-- Python `os.path.basename` (POSIX): the part after the last slash. -/
def basename (p : String) : String :=
  ⟨p.data.foldl (fun acc c => if c = '/' then [] else acc ++ [c]) []⟩

/-! ### Base64 (Python's `base64.b64encode`, RFC 4648 with padding) -/

/-- The base64 alphabet. -/
def b64Alphabet : String :=
  "ABCDEFGHIJKLMNOPQRSTUVWXYZabcdefghijklmnopqrstuvwxyz0123456789+/"

/-- The character encoding the sextet `n` (for `n < 64`). -/
def b64c (n : Nat) : Char :=
  b64Alphabet.data.getD n 'A'

/-- The sextet a base64 character stands for. -/
def b64v (c : Char) : Nat :=
  b64Alphabet.data.indexOf c

/-- Base64-encode a byte list, three bytes to four characters, padding the
final chunk with `'='` — the semantics of Python's `base64.b64encode`. -/
def b64EncodeL : List Nat → List Char
  | [] => []
  | [a] => [b64c (a / 4), b64c (a % 4 * 16), '=', '=']
  | [a, b] => [b64c (a / 4), b64c (a % 4 * 16 + b / 16), b64c (b % 16 * 4), '=']
  | a :: b :: c :: rest =>
    b64c (a / 4) :: b64c (a % 4 * 16 + b / 16) :: b64c (b % 16 * 4 + c / 64) ::
      b64c (c % 64) :: b64EncodeL rest

/-- Standard base64 decoding of a padded encoding, the inverse direction of
the round-trip law. -/
def b64DecodeL : List Char → List Nat
  | c1 :: c2 :: c3 :: c4 :: rest =>
    if c3 = '=' then
      [b64v c1 * 4 + b64v c2 / 16]
    else if c4 = '=' then
      [b64v c1 * 4 + b64v c2 / 16, b64v c2 % 16 * 16 + b64v c3 / 4]
    else
      (b64v c1 * 4 + b64v c2 / 16) :: (b64v c2 % 16 * 16 + b64v c3 / 4) ::
        (b64v c3 % 4 * 64 + b64v c4) :: b64DecodeL rest
  | _ => []

/-- `base64.b64encode(bytes).decode("utf-8")`: the encoding as a string. -/
def b64Encode (bytes : List Nat) : String :=
  ⟨b64EncodeL bytes⟩

/-- Decode a base64 string back to bytes. -/
def b64Decode (s : String) : List Nat :=
  b64DecodeL s.data

theorem b64v_b64c : ∀ n < 64, b64v (b64c n) = n := by decide

theorem b64c_ne_pad : ∀ n < 64, b64c n ≠ '=' := by decide

/-- Round-trip law: decoding the encoding of a byte list gives it back. -/
theorem b64_roundtripL : ∀ l : List Nat, (∀ b ∈ l, b < 256) →
    b64DecodeL (b64EncodeL l) = l
  | [], _ => rfl
  | [a], h => by
    have ha : a < 256 := h a (by simp)
    have h1 := b64v_b64c (a / 4) (by omega)
    have h2 := b64v_b64c (a % 4 * 16) (by omega)
    simp [b64EncodeL, b64DecodeL, h1, h2]
    omega
  | [a, b], h => by
    have ha : a < 256 := h a (by simp)
    have hb : b < 256 := h b (by simp)
    have h1 := b64v_b64c (a / 4) (by omega)
    have h2 := b64v_b64c (a % 4 * 16 + b / 16) (by omega)
    have h3 := b64v_b64c (b % 16 * 4) (by omega)
    have hne := b64c_ne_pad (b % 16 * 4) (by omega)
    simp [b64EncodeL, b64DecodeL, h1, h2, h3, hne]
    omega
  | a :: b :: c :: rest, h => by
    have ha : a < 256 := h a (by simp)
    have hb : b < 256 := h b (by simp)
    have hc : c < 256 := h c (by simp)
    have ih := b64_roundtripL rest (fun x hx => h x (by simp [hx]))
    have h1 := b64v_b64c (a / 4) (by omega)
    have h2 := b64v_b64c (a % 4 * 16 + b / 16) (by omega)
    have h3 := b64v_b64c (b % 16 * 4 + c / 64) (by omega)
    have h4 := b64v_b64c (c % 64) (by omega)
    have hne3 := b64c_ne_pad (b % 16 * 4 + c / 64) (by omega)
    have hne4 := b64c_ne_pad (c % 64) (by omega)
    simp [b64EncodeL, b64DecodeL, h1, h2, h3, h4, hne3, hne4, ih]
    omega

/-- Round-trip law at the string level. -/
theorem b64_roundtrip (l : List Nat) (h : ∀ b ∈ l, b < 256) :
    b64Decode (b64Encode l) = l :=
  b64_roundtripL l h

/-! ### `patchstarter.py` -/

/-- The parsed command line of `patchstarter.py` (`parse_arguments`).
`publisher` and `name` have `default=""`; `extension_attribute` uses
`action="append"` (so is `None` when never given); `app_version` and
`min_sys_version` default to `None`; `patch_only` is `store_true`. -/
structure Args where
  path : String
  output : Option String
  publisher : String
  name : String
  extension_attribute : Option (List String)
  app_version : Option String
  min_sys_version : Option String
  patch_only : Bool

/-- The dict returned by `get_app_info` — seven string-valued keys. -/
structure AppInfo where
  app_name : String
  app_id : String
  app_bundle_id : String
  app_version : String
  app_min_os : String
  app_last_modified : String
  app_timestamp : String
deriving Repr, DecidableEq

/-- `load_plist`: returns the parsed plist, or turns any read/parse failure
into `SystemExit("Error reading plist: " + e)`. `plistResult` is the outcome
of opening and parsing the file (`.error e` = the exception `e` was raised). -/
def load_plist (plistResult : Except String Plist) : Except String Plist :=
  match plistResult with
  | .error e => .error ("Error reading plist: " ++ e)
  | .ok p => .ok p

/-- `get_app_info`: extract app metadata from the Info.plist. `nowIso` is
`datetime.now(timezone.utc).isoformat()` and `mtimeIso` is
`datetime.fromtimestamp(os.path.getmtime(args.path), timezone.utc).isoformat()`,
passed in because they are clock/filesystem reads. -/
def get_app_info (args : Args) (plistResult : Except String Plist)
    (nowIso mtimeIso : String) : Except String AppInfo :=
  match load_plist plistResult with
  | .error e => .error e
  | .ok info =>
    let app_name := pyOrStr args.name
      (info.get "CFBundleName" (pyReplace (basename args.path) ".app" ""))
    let app_id := pyReplace app_name " " ""
    let app_bundle_id := info.get "CFBundleIdentifier" "unknown.bundle.id"
    let app_version := pyOrOpt args.app_version
      (info.get "CFBundleShortVersionString" "0.0.0")
    let app_min_os := pyOrOpt args.min_sys_version
      (info.get "LSMinimumSystemVersion" "10.9")
    let app_last_modified := nowIso ++ "Z"
    let app_timestamp := mtimeIso ++ "Z"
    .ok {
      app_name := app_name
      app_id := app_id
      app_bundle_id := app_bundle_id
      app_version := app_version
      app_min_os := app_min_os
      app_last_modified := app_last_modified
      app_timestamp := app_timestamp
    }

/-- `create_patch`: the patch record built from the metadata dict. -/
def create_patch (info : AppInfo) : JVal :=
  .obj [
    ("version", .str info.app_version),
    ("releaseDate", .str info.app_timestamp),
    ("standalone", .bool true),
    ("minimumOperatingSystem", .str info.app_min_os),
    ("reboot", .bool false),
    ("killApps", .arr [.obj [
      ("bundleId", .str info.app_bundle_id),
      ("appName", .str info.app_name)]]),
    ("components", .arr [.obj [
      ("name", .str info.app_name),
      ("version", .str info.app_version),
      ("criteria", .arr [
        .obj [
          ("name", .str "Application Bundle ID"),
          ("operator", .str "is"),
          ("value", .str info.app_bundle_id),
          ("type", .str "recon")],
        .obj [
          ("name", .str "Application Version"),
          ("operator", .str "is"),
          ("value", .str info.app_version),
          ("type", .str "recon")]])]]),
    ("capabilities", .arr [.obj [
      ("name", .str "Operating System Version"),
      ("operator", .str "greater than or equal"),
      ("value", .str info.app_min_os),
      ("type", .str "recon")]]),
    ("dependencies", .arr [])]

/-- The full-definition dict of `create_patch_definition`, with its
`extensionAttributes` list at its final value (the source builds the dict
with `[]` and appends the attributes in place before returning). -/
def mkDefinition (info : AppInfo) (patch : JVal) (publisher : String)
    (attrs : List JVal) : JVal :=
  .obj [
    ("id", .str info.app_id),
    ("name", .str info.app_name),
    ("publisher", .str publisher),
    ("appName", .str (info.app_name ++ ".app")),
    ("bundleId", .str info.app_bundle_id),
    ("lastModified", .str info.app_last_modified),
    ("currentVersion", .str info.app_version),
    ("requirements", .arr [.obj [
      ("name", .str "Application Bundle ID"),
      ("operator", .str "is"),
      ("value", .str info.app_bundle_id),
      ("type", .str "recon")]]),
    ("patches", .arr [patch]),
    ("extensionAttributes", .arr attrs)]

/-- The extension-attribute entry appended for a file whose raw bytes are
`bytes`: key = lower-cased hyphenated app name, value = base64 of the bytes,
displayName = the app name. -/
def extAttrFor (info : AppInfo) (bytes : List Nat) : JVal :=
  .obj [
    ("key", .str (pyReplace (pyLower info.app_name) " " "-")),
    ("value", .str (b64Encode bytes)),
    ("displayName", .str info.app_name)]

/-- The extension-attribute loop of `create_patch_definition`: read each
path in order (`fs` gives the bytes, `none` = the read raised `IOError`,
whose message names the path) and collect the encoded entries; the first
failed read raises `SystemExit("Error reading extension attribute: " + e)`
and discards everything built so far. -/
def readExtAttrs (info : AppInfo) (fs : String → Option (List Nat)) :
    List String → Except String (List JVal)
  | [] => .ok []
  | ext_path :: rest =>
    match fs ext_path with
    | none => .error ("Error reading extension attribute: " ++ ext_path)
    | some bytes =>
      match readExtAttrs info fs rest with
      | .ok attrs => .ok (extAttrFor info bytes :: attrs)
      | .error e => .error e

/-- `create_patch_definition`: the full definition. When
`args.extension_attribute` is falsy (`None`, or the empty list — which
argparse never produces) the loop body never runs and `extensionAttributes`
stays `[]`; otherwise the attributes are appended in input order, and the
first failed read aborts the whole call. -/
def create_patch_definition (info : AppInfo) (patch : JVal) (args : Args)
    (fs : String → Option (List Nat)) : Except String JVal :=
  match args.extension_attribute with
  | none => .ok (mkDefinition info patch (pyOrStr args.publisher info.app_name) [])
  | some paths =>
    match readExtAttrs info fs paths with
    | .ok attrs => .ok (mkDefinition info patch (pyOrStr args.publisher info.app_name) attrs)
    | .error e => .error e

/-- The filename `save_output` writes to inside the output directory. -/
def outputFilename (app_id : String) (patch_only : Bool) : String :=
  if patch_only then app_id ++ "-patch.json" else app_id ++ ".json"

/-- `main`: extract, build the patch, and emit either the bare patch
(patch-only mode) or the full definition. The result is the emitted JSON
document, or the `SystemExit` message of the first fatal error. -/
def main' (args : Args) (plistResult : Except String Plist)
    (fs : String → Option (List Nat)) (nowIso mtimeIso : String) :
    Except String JVal :=
  match get_app_info args plistResult nowIso mtimeIso with
  | .error e => .error e
  | .ok info =>
    let patch := create_patch info
    if args.patch_only then .ok patch
    else create_patch_definition info patch args fs

/-- Process exit status of a run: `raise SystemExit(msg)` with a string
message exits with status 1; a completed run exits with status 0. -/
def runExitCode (r : Except String JVal) : Nat :=
  match r with
  | .error _ => 1
  | .ok _ => 0

/-! ### `title_manager.py` -/

namespace TitleManager

/-- `TitleManager.load_plist`: a read/parse failure becomes a
`RuntimeError` naming the plist path and carrying the cause. -/
def load_plist (app_path : String) (plistResult : Except String Plist) :
    Except String Plist :=
  match plistResult with
  | .error e =>
    .error ("Error reading plist file at " ++ app_path ++
      "/Contents/Info.plist. Details: " ++ e)
  | .ok p => .ok p

/-- `TitleManager.extract_app_info`: like `get_app_info` but with no
command-line overrides. -/
def extract_app_info (app_path : String) (plistResult : Except String Plist)
    (nowIso mtimeIso : String) : Except String AppInfo :=
  match load_plist app_path plistResult with
  | .error e => .error e
  | .ok plist_data =>
    let app_name :=
      plist_data.get "CFBundleName" (pyReplace (basename app_path) ".app" "")
    let app_id := pyReplace app_name " " ""
    let app_bundle_id := plist_data.get "CFBundleIdentifier" "unknown.bundle.id"
    let app_version := plist_data.get "CFBundleShortVersionString" "0.0.0"
    let app_min_os := plist_data.get "LSMinimumSystemVersion" "10.9"
    let app_last_modified := nowIso ++ "Z"
    let app_timestamp := mtimeIso ++ "Z"
    .ok {
      app_name := app_name
      app_id := app_id
      app_bundle_id := app_bundle_id
      app_version := app_version
      app_min_os := app_min_os
      app_last_modified := app_last_modified
      app_timestamp := app_timestamp
    }

/-- `TitleManager.create_patch`: the patch record. -/
def create_patch (app_info : AppInfo) : JVal :=
  .obj [
    ("version", .str app_info.app_version),
    ("releaseDate", .str app_info.app_timestamp),
    ("standalone", .bool true),
    ("minimumOperatingSystem", .str app_info.app_min_os),
    ("reboot", .bool false),
    ("killApps", .arr [.obj [
      ("bundleId", .str app_info.app_bundle_id),
      ("appName", .str app_info.app_name)]]),
    ("components", .arr [.obj [
      ("name", .str app_info.app_name),
      ("version", .str app_info.app_version),
      ("criteria", .arr [
        .obj [
          ("name", .str "Application Bundle ID"),
          ("operator", .str "is"),
          ("value", .str app_info.app_bundle_id),
          ("type", .str "recon")],
        .obj [
          ("name", .str "Application Version"),
          ("operator", .str "is"),
          ("value", .str app_info.app_version),
          ("type", .str "recon")]])]]),
    ("capabilities", .arr [.obj [
      ("name", .str "Operating System Version"),
      ("operator", .str "greater than or equal"),
      ("value", .str app_info.app_min_os),
      ("type", .str "recon")]]),
    ("dependencies", .arr [])]

/-- `TitleManager.create_full_definition`: the full definition (publisher
always defaults to the app name; no extension-attribute support). -/
def create_full_definition (app_info : AppInfo) (patch : JVal) : JVal :=
  .obj [
    ("id", .str app_info.app_id),
    ("name", .str app_info.app_name),
    ("publisher", .str app_info.app_name),
    ("appName", .str (app_info.app_name ++ ".app")),
    ("bundleId", .str app_info.app_bundle_id),
    ("lastModified", .str app_info.app_last_modified),
    ("currentVersion", .str app_info.app_version),
    ("requirements", .arr [.obj [
      ("name", .str "Application Bundle ID"),
      ("operator", .str "is"),
      ("value", .str app_info.app_bundle_id),
      ("type", .str "recon")]]),
    ("patches", .arr [patch]),
    ("extensionAttributes", .arr [])]

/-- `TitleManager.generate` (without the pretty-printing branch): the
document the manager produces. -/
def generate (app_path : String) (plistResult : Except String Plist)
    (nowIso mtimeIso : String) (patch_only : Bool) : Except String JVal :=
  match extract_app_info app_path plistResult nowIso mtimeIso with
  | .error e => .error e
  | .ok app_info =>
    let patch := create_patch app_info
    .ok (if patch_only then patch else create_full_definition app_info patch)

end TitleManager

/-! ### Helper lemmas -/

theorem Plist_get_eq_declares (p : Plist) (key dflt : String) :
    p.get key dflt = (p.declares key).getD dflt := by
  unfold Plist.get Plist.declares
  cases p.find? (fun kv => kv.1 == key) <;> rfl

theorem replaceFuel_single_notMem (c : Char) :
    ∀ (n : Nat) (s : List Char), s.length ≤ n → c ∉ replaceFuel [c] [] n s := by
  intro n
  induction n with
  | zero =>
    intro s hs
    have : s = [] := List.eq_nil_of_length_eq_zero (Nat.le_zero.mp hs)
    subst this
    simp [replaceFuel]
  | succ n ih =>
    intro s hs
    match s with
    | [] => simp [replaceFuel]
    | d :: cs =>
      simp only [replaceFuel]
      split
      next h =>
        simp only [List.drop_succ_cons, List.drop_zero, List.nil_append]
        exact ih cs (by simpa using Nat.le_of_succ_le_succ hs)
      next h =>
        have hcd : c ≠ d := by
          intro e
          exact h ⟨by simp, by simp [e, List.cons_prefix_cons]⟩
        have hrest := ih cs (by simpa using Nat.le_of_succ_le_succ hs)
        simp [List.mem_cons, hcd, hrest]

/-- Removing every `' '` really leaves no `' '` in the result. -/
theorem pyReplace_space_notMem (s : String) :
    ' ' ∉ (pyReplace s " " "").data := by
  have h := replaceFuel_single_notMem ' ' s.data.length s.data le_rfl
  simpa [pyReplace, replaceL] using h

/-- When every path is readable the loop succeeds and returns one encoded
entry per path, in input order. -/
theorem readExtAttrs_all_ok (info : AppInfo) (fs : String → Option (List Nat)) :
    ∀ paths : List String, (∀ q ∈ paths, (fs q).isSome) →
      readExtAttrs info fs paths =
        .ok (paths.map (fun q => extAttrFor info ((fs q).getD [])))
  | [], _ => rfl
  | q :: rest, h => by
    obtain ⟨bytes, hb⟩ := Option.isSome_iff_exists.mp (h q (by simp))
    have ih := readExtAttrs_all_ok info fs rest (fun x hx => h x (by simp [hx]))
    simp [readExtAttrs, hb, ih]

/-- If some path is unreadable the loop fails, reporting the first
unreadable path. -/
theorem readExtAttrs_first_error (info : AppInfo) (fs : String → Option (List Nat)) :
    ∀ paths : List String, (∃ q ∈ paths, fs q = none) →
      ∃ b ∈ paths, fs b = none ∧
        readExtAttrs info fs paths =
          .error ("Error reading extension attribute: " ++ b)
  | [], h => by simp at h
  | q :: rest, h => by
    cases hq : fs q with
    | none =>
      exact ⟨q, by simp, hq, by simp [readExtAttrs, hq]⟩
    | some bytes =>
      have hrest : ∃ x ∈ rest, fs x = none := by
        obtain ⟨x, hx, hfx⟩ := h
        rcases List.mem_cons.mp hx with rfl | hx'
        · rw [hq] at hfx; cases hfx
        · exact ⟨x, hx', hfx⟩
      obtain ⟨b, hb, hfb, herr⟩ := readExtAttrs_first_error info fs rest hrest
      exact ⟨b, by simp [hb], hfb, by simp [readExtAttrs, hq, herr]⟩

/-- Every successful `create_patch_definition` call returns the
`mkDefinition` shape with the truthiness-resolved publisher. -/
theorem create_patch_definition_ok_shape (info : AppInfo) (patch : JVal)
    (args : Args) (fs : String → Option (List Nat)) (d : JVal)
    (h : create_patch_definition info patch args fs = .ok d) :
    ∃ attrs, d = mkDefinition info patch (pyOrStr args.publisher info.app_name) attrs := by
  cases hargs : args.extension_attribute with
  | none =>
    simp only [create_patch_definition, hargs] at h
    injection h with h
    exact ⟨[], h.symm⟩
  | some paths =>
    simp only [create_patch_definition, hargs] at h
    cases hm : readExtAttrs info fs paths with
    | ok attrs =>
      simp only [hm] at h
      injection h with h
      exact ⟨attrs, h.symm⟩
    | error e =>
      simp only [hm] at h
      cases h

/-! ### Witness fixtures -/

/-- A concrete command line (only the bundle path given). -/
def sampleArgs : Args := {
  path := "/Applications/Foo Bar.app"
  output := none
  publisher := ""
  name := ""
  extension_attribute := none
  app_version := none
  min_sys_version := none
  patch_only := false }

/-- A concrete Info.plist. -/
def samplePlist : Plist :=
  [("CFBundleName", "Foo Bar"),
   ("CFBundleIdentifier", "com.example.foobar"),
   ("CFBundleShortVersionString", "1.2")]

/-- The metadata record extracted from `sampleArgs` / `samplePlist`. -/
def sampleInfo : AppInfo := {
  app_name := "Foo Bar"
  app_id := "FooBar"
  app_bundle_id := "com.example.foobar"
  app_version := "1.2"
  app_min_os := "10.9"
  app_last_modified := "2024-01-01T00:00:00+00:00Z"
  app_timestamp := "2024-01-02T00:00:00+00:00Z" }

/-! ### Claim theorems -/

/-- C8: building the full definition with no publisher override (absent or
empty) sets the `publisher` field to the display name; a non-empty override
sets it to exactly that override. -/
theorem publisher_override_precedence (info : AppInfo) (patch : JVal)
    (args : Args) (fs : String → Option (List Nat)) (d : JVal)
    (h : create_patch_definition info patch args fs = .ok d) :
    (args.publisher = "" → d.field "publisher" = some (.str info.app_name)) ∧
    (args.publisher ≠ "" → d.field "publisher" = some (.str args.publisher)) := by
  obtain ⟨attrs, rfl⟩ := create_patch_definition_ok_shape info patch args fs d h
  constructor
  · intro hp
    simp [mkDefinition, JVal.field, List.find?, pyOrStr, hp]
  · intro hp
    simp [mkDefinition, JVal.field, List.find?, pyOrStr, hp]

/-- Witness for C8: with no override the publisher is the display name. -/
theorem publisher_override_precedence_witness :
    ∃ d, create_patch_definition sampleInfo (create_patch sampleInfo) sampleArgs
        (fun _ => none) = .ok d ∧
      d.field "publisher" = some (.str "Foo Bar") := by
  refine ⟨_, rfl, ?_⟩
  exact (publisher_override_precedence sampleInfo (create_patch sampleInfo)
    sampleArgs (fun _ => none) _ rfl).1 rfl

/-- C9: supplying the empty string as override for display name, version,
or minimum OS behaves exactly as if no override were supplied — the
precedence test is the override's truthiness, not its presence. -/
theorem empty_override_like_absent (args : Args) (pr : Except String Plist)
    (nowIso mtimeIso : String) :
    get_app_info { args with app_version := some "" } pr nowIso mtimeIso =
      get_app_info { args with app_version := none } pr nowIso mtimeIso ∧
    get_app_info { args with min_sys_version := some "" } pr nowIso mtimeIso =
      get_app_info { args with min_sys_version := none } pr nowIso mtimeIso ∧
    (∀ (p : Plist) (info : AppInfo),
      get_app_info { args with name := "" } (.ok p) nowIso mtimeIso = .ok info →
      info.app_name = (p.declares "CFBundleName").getD
        (pyReplace (basename args.path) ".app" "")) := by
  refine ⟨?_, ?_, ?_⟩
  · cases pr with
    | error e => rfl
    | ok p => simp [get_app_info, load_plist, pyOrOpt]
  · cases pr with
    | error e => rfl
    | ok p => simp [get_app_info, load_plist, pyOrOpt]
  · intro p info h
    simp only [get_app_info, load_plist] at h
    injection h with h
    rw [← h]
    simp [pyOrStr, Plist_get_eq_declares]

/-- Witness for C9: an empty name override falls back to the manifest. -/
theorem empty_override_like_absent_witness :
    (get_app_info { sampleArgs with app_version := some "" } (.ok samplePlist) "T" "U" =
      get_app_info { sampleArgs with app_version := none } (.ok samplePlist) "T" "U") ∧
    ∃ info, get_app_info { sampleArgs with name := "" } (.ok samplePlist) "T" "U" = .ok info ∧
      info.app_name = "Foo Bar" := by
  have h := empty_override_like_absent sampleArgs (.ok samplePlist) "T" "U"
  refine ⟨h.1, _, rfl, ?_⟩
  have h2 := h.2.2 samplePlist _ rfl
  exact h2.trans (by decide)

/-- C4: the identity slug (the `id` field and filename basis) equals the
display name with every space removed, contains no spaces, and is always
derived from the display name — in both implementations. -/
theorem identity_slug_derived (args : Args) (p : Plist) (nowIso mtimeIso : String)
    (app_path : String) (info tmInfo : AppInfo)
    (h : get_app_info args (.ok p) nowIso mtimeIso = .ok info)
    (ht : TitleManager.extract_app_info app_path (.ok p) nowIso mtimeIso = .ok tmInfo) :
    (info.app_id = pyReplace info.app_name " " "" ∧ ' ' ∉ info.app_id.data) ∧
    (tmInfo.app_id = pyReplace tmInfo.app_name " " "" ∧ ' ' ∉ tmInfo.app_id.data) := by
  simp only [get_app_info, load_plist] at h
  injection h with h
  simp only [TitleManager.extract_app_info, TitleManager.load_plist] at ht
  injection ht with ht
  subst h
  subst ht
  exact ⟨⟨rfl, pyReplace_space_notMem _⟩, ⟨rfl, pyReplace_space_notMem _⟩⟩

/-- Witness for C4: the slug of "Foo Bar" is "FooBar", with no space. -/
theorem identity_slug_derived_witness :
    ∃ info tmInfo,
      get_app_info sampleArgs (.ok samplePlist) "T" "U" = .ok info ∧
      TitleManager.extract_app_info "/Applications/Foo Bar.app" (.ok samplePlist)
        "T" "U" = .ok tmInfo ∧
      info.app_id = pyReplace info.app_name " " "" ∧ ' ' ∉ info.app_id.data ∧
      info.app_id = "FooBar" := by
  refine ⟨_, _, rfl, rfl, ?_, ?_, by decide⟩
  · exact (identity_slug_derived sampleArgs samplePlist "T" "U"
      "/Applications/Foo Bar.app" _ _ rfl rfl).1.1
  · exact (identity_slug_derived sampleArgs samplePlist "T" "U"
      "/Applications/Foo Bar.app" _ _ rfl rfl).1.2

/-- C5: both timestamps are emitted as the ISO text with a literal "Z"
appended unconditionally; since `isoformat()` of a timezone-aware UTC value
already ends in the numeric offset "+00:00", the emitted strings end in the
offset followed by "Z". -/
theorem timestamps_literal_z (args : Args) (p : Plist) (nowIso mtimeIso : String)
    (info : AppInfo) (h : get_app_info args (.ok p) nowIso mtimeIso = .ok info) :
    info.app_last_modified = nowIso ++ "Z" ∧
    info.app_timestamp = mtimeIso ++ "Z" ∧
    ("+00:00".data <:+ nowIso.data →
      "+00:00Z".data <:+ info.app_last_modified.data) ∧
    ("+00:00".data <:+ mtimeIso.data →
      "+00:00Z".data <:+ info.app_timestamp.data) := by
  simp only [get_app_info, load_plist] at h
  injection h with h
  subst h
  refine ⟨rfl, rfl, ?_, ?_⟩
  · rintro ⟨t, ht⟩
    refine ⟨t, ?_⟩
    show t ++ "+00:00Z".data = (nowIso ++ "Z").data
    rw [show ("+00:00Z".data : List Char) = "+00:00".data ++ "Z".data from rfl,
      String.data_append, ← List.append_assoc, ht]
  · rintro ⟨t, ht⟩
    refine ⟨t, ?_⟩
    show t ++ "+00:00Z".data = (mtimeIso ++ "Z").data
    rw [show ("+00:00Z".data : List Char) = "+00:00".data ++ "Z".data from rfl,
      String.data_append, ← List.append_assoc, ht]

/-- Witness for C5: a UTC ISO timestamp gets the extra "Z" after its
"+00:00" offset. -/
theorem timestamps_literal_z_witness :
    ∃ info, get_app_info sampleArgs
        (.ok samplePlist) "2024-01-01T00:00:00+00:00" "2024-01-02T00:00:00+00:00" = .ok info ∧
      info.app_last_modified = "2024-01-01T00:00:00+00:00" ++ "Z" ∧
      "+00:00Z".data <:+ info.app_last_modified.data ∧
      "+00:00Z".data <:+ info.app_timestamp.data := by
  refine ⟨_, rfl, ?_, ?_, ?_⟩
  · exact (timestamps_literal_z sampleArgs samplePlist _ _ _ rfl).1
  · exact (timestamps_literal_z sampleArgs samplePlist _ _ _ rfl).2.2.1 (by decide)
  · exact (timestamps_literal_z sampleArgs samplePlist _ _ _ rfl).2.2.2 (by decide)

/-- C6: an unreadable or unparseable Info.plist is fatal: the run emits no
document, reports the error carrying the underlying cause, and exits with a
non-zero status — in both implementations. -/
theorem plist_failure_fatal (args : Args) (fs : String → Option (List Nat))
    (nowIso mtimeIso : String) (cause : String) (app_path : String)
    (patch_only : Bool) :
    main' args (.error cause) fs nowIso mtimeIso =
      .error ("Error reading plist: " ++ cause) ∧
    runExitCode (main' args (.error cause) fs nowIso mtimeIso) = 1 ∧
    TitleManager.generate app_path (.error cause) nowIso mtimeIso patch_only =
      .error ("Error reading plist file at " ++ app_path ++
        "/Contents/Info.plist. Details: " ++ cause) ∧
    runExitCode (TitleManager.generate app_path (.error cause) nowIso mtimeIso
      patch_only) = 1 :=
  ⟨rfl, rfl, rfl, rfl⟩

/-- C7: an unreadable attachment path makes the full-definition run fail
with the attachment error naming the (first) failing path; the failure is
all-or-nothing — the run emits an error, not a partial document, even when
earlier attachments were read successfully. -/
theorem attachment_failure_fatal (args : Args) (p : Plist)
    (fs : String → Option (List Nat)) (nowIso mtimeIso : String)
    (paths : List String) (q : String)
    (hargs : args.extension_attribute = some paths)
    (hpo : args.patch_only = false)
    (hq : q ∈ paths) (hfail : fs q = none) :
    ∃ b ∈ paths, fs b = none ∧
      main' args (.ok p) fs nowIso mtimeIso =
        .error ("Error reading extension attribute: " ++ b) := by
  obtain ⟨info, hi⟩ : ∃ i, get_app_info args (.ok p) nowIso mtimeIso = .ok i := ⟨_, rfl⟩
  obtain ⟨b, hb, hfb, herr⟩ := readExtAttrs_first_error info fs paths ⟨q, hq, hfail⟩
  refine ⟨b, hb, hfb, ?_⟩
  simp only [main', hi, hpo, create_patch_definition, hargs, herr]
  simp

/-- Witness fixture: a command line supplying two attachment paths. -/
def attachArgs : Args := { sampleArgs with extension_attribute := some ["good", "bad"] }

/-- Witness fixture: a filesystem where only "good" is readable. -/
def attachFs : String → Option (List Nat) :=
  fun q => if q = "good" then some [104, 105] else none

/-- Witness for C7: the run fails naming "bad" although "good" was read. -/
theorem attachment_failure_fatal_witness :
    ∃ b ∈ ["good", "bad"], attachFs b = none ∧
      main' attachArgs (.ok samplePlist) attachFs "T" "U" =
        .error ("Error reading extension attribute: " ++ b) := by
  exact attachment_failure_fatal attachArgs samplePlist attachFs "T" "U"
    ["good", "bad"] "bad" rfl rfl (by simp) rfl

/-- C2: for the same extracted metadata, the patch-only document is
structurally identical to `patches[0]` of the full document, and the
patch-only document has no `id`, `publisher`, or `extensionAttributes`
fields. -/
theorem patch_only_vs_full (args : Args) (p : Plist)
    (fs : String → Option (List Nat)) (nowIso mtimeIso : String)
    (dPatch dFull : JVal)
    (hp : main' { args with patch_only := true } (.ok p) fs nowIso mtimeIso = .ok dPatch)
    (hf : main' { args with patch_only := false } (.ok p) fs nowIso mtimeIso = .ok dFull) :
    dFull.field "patches" = some (.arr [dPatch]) ∧
    dPatch.field "id" = none ∧
    dPatch.field "publisher" = none ∧
    dPatch.field "extensionAttributes" = none := by
  obtain ⟨info, hi⟩ : ∃ i,
      get_app_info { args with patch_only := true } (.ok p) nowIso mtimeIso = .ok i :=
    ⟨_, rfl⟩
  have hi' : get_app_info { args with patch_only := false } (.ok p) nowIso mtimeIso =
      .ok info := hi
  simp only [main', hi, if_true] at hp
  injection hp with hp
  subst hp
  simp only [main', hi', if_false] at hf
  obtain ⟨attrs, rfl⟩ := create_patch_definition_ok_shape _ _ _ _ _ hf
  refine ⟨?_, ?_, ?_, ?_⟩
  · simp [mkDefinition, JVal.field, List.find?]
  · simp [create_patch, JVal.field, List.find?]
  · simp [create_patch, JVal.field, List.find?]
  · simp [create_patch, JVal.field, List.find?]

/-- Witness for C2 at a concrete input. -/
theorem patch_only_vs_full_witness :
    ∃ dPatch dFull,
      main' { sampleArgs with patch_only := true } (.ok samplePlist)
        (fun _ => none) "T" "U" = .ok dPatch ∧
      main' { sampleArgs with patch_only := false } (.ok samplePlist)
        (fun _ => none) "T" "U" = .ok dFull ∧
      dFull.field "patches" = some (.arr [dPatch]) ∧
      dPatch.field "id" = none ∧
      dPatch.field "publisher" = none ∧
      dPatch.field "extensionAttributes" = none := by
  refine ⟨_, _, rfl, rfl, ?_⟩
  exact patch_only_vs_full sampleArgs samplePlist (fun _ => none) "T" "U" _ _ rfl rfl

/-- C3: with every attachment readable, `extensionAttributes` has exactly
one entry per supplied path, in input order with no sorting or
de-duplication (entry `i` comes from path `i`); each entry's value is the
base64 of that file's bytes (decoding returns the bytes), its key is the
lower-cased hyphenated display name, and its displayName echoes the
display name. -/
theorem extension_attributes_spec (info : AppInfo) (patch : JVal) (args : Args)
    (fs : String → Option (List Nat)) (paths : List String)
    (hargs : args.extension_attribute = some paths)
    (hread : ∀ q ∈ paths, (fs q).isSome) :
    ∃ attrs : List JVal,
      create_patch_definition info patch args fs =
        .ok (mkDefinition info patch (pyOrStr args.publisher info.app_name) attrs) ∧
      attrs.length = paths.length ∧
      (∀ i < paths.length, ∃ q bytes,
        paths[i]? = some q ∧ fs q = some bytes ∧
        attrs[i]? = some (.obj [
          ("key", .str (pyReplace (pyLower info.app_name) " " "-")),
          ("value", .str (b64Encode bytes)),
          ("displayName", .str info.app_name)]) ∧
        ((∀ x ∈ bytes, x < 256) → b64Decode (b64Encode bytes) = bytes)) := by
  refine ⟨paths.map (fun q => extAttrFor info ((fs q).getD [])), ?_, by simp, ?_⟩
  · simp only [create_patch_definition, hargs, readExtAttrs_all_ok info fs paths hread]
  · intro i hi
    obtain ⟨bytes, hb⟩ := Option.isSome_iff_exists.mp
      (hread (paths[i]) (List.getElem_mem hi))
    refine ⟨paths[i], bytes, ?_, hb, ?_, fun hlt => b64_roundtrip bytes hlt⟩
    · simp [List.getElem?_eq_getElem hi]
    · simp only [List.getElem?_map, List.getElem?_eq_getElem hi, Option.map_some]
      simp [extAttrFor, hb]

/-- Witness fixture: one attachment path. -/
def attachOneArgs : Args := { sampleArgs with extension_attribute := some ["good"] }

/-- Witness for C3: one readable attachment yields one base64-valued entry. -/
theorem extension_attributes_spec_witness :
    ∃ attrs : List JVal,
      create_patch_definition sampleInfo (create_patch sampleInfo) attachOneArgs attachFs =
        .ok (mkDefinition sampleInfo (create_patch sampleInfo) "Foo Bar" attrs) ∧
      attrs.length = 1 ∧
      attrs[0]? = some (.obj [
        ("key", .str "foo-bar"),
        ("value", .str "aGk="),
        ("displayName", .str "Foo Bar")]) := by
  obtain ⟨attrs, h1, h2, h3⟩ := extension_attributes_spec sampleInfo
    (create_patch sampleInfo) attachOneArgs attachFs ["good"] rfl (by decide)
  obtain ⟨q, bytes, hq, hbytes, hattr, _⟩ := h3 0 (by decide)
  refine ⟨attrs, h1, by simpa using h2, ?_⟩
  have hqg : q = "good" := by simpa [eq_comm] using hq
  subst hqg
  have hbg : bytes = [104, 105] := by
    have hg : attachFs "good" = some [104, 105] := by decide
    rw [hg] at hbytes
    injection hbytes with hb
    exact hb.symm
  subst hbg
  exact hattr.trans rfl

/-- C10: the two implementations agree — the patch records are structurally
identical for the same metadata, and with no publisher override and no
attachments the full definitions are structurally identical too. -/
theorem implementations_agree (info : AppInfo) (patch : JVal) (args : Args)
    (fs : String → Option (List Nat))
    (hpub : args.publisher = "") (hext : args.extension_attribute = none) :
    create_patch info = TitleManager.create_patch info ∧
    create_patch_definition info patch args fs =
      .ok (TitleManager.create_full_definition info patch) := by
  refine ⟨rfl, ?_⟩
  simp only [create_patch_definition, hext]
  simp [mkDefinition, TitleManager.create_full_definition, pyOrStr, hpub]

/-- Witness for C10 at a concrete metadata record. -/
theorem implementations_agree_witness :
    create_patch sampleInfo = TitleManager.create_patch sampleInfo ∧
    create_patch_definition sampleInfo (create_patch sampleInfo) sampleArgs
        (fun _ => none) =
      .ok (TitleManager.create_full_definition sampleInfo (create_patch sampleInfo)) :=
  implementations_agree sampleInfo (create_patch sampleInfo) sampleArgs
    (fun _ => none) rfl rfl

/-- C1 counterexample: supplying the explicit override `--app-version ""`
while the manifest declares "1.2" yields "1.2", not the supplied override
value — so "override supplied, field equals that exact override" fails as
stated. -/
theorem field_precedence_counterexample :
    ∃ info, get_app_info { sampleArgs with app_version := some "" }
        (.ok samplePlist) "T" "U" = .ok info ∧
      info.app_version ≠ "" ∧ info.app_version = "1.2" := by
  refine ⟨_, rfl, by decide, by decide⟩

/-- C1 (amended): three-tier precedence, where "override supplied" means a
non-empty override (an empty one counts as absent, see the truthiness
test): a non-empty explicit override wins regardless of the manifest; else
a declared manifest value wins; else the hard-coded default applies
("0.0.0" version, "10.9" minimum OS; the non-overridable bundle identifier
defaults to "unknown.bundle.id"). -/
theorem field_precedence (args : Args) (p : Plist) (nowIso mtimeIso : String)
    (info : AppInfo) (h : get_app_info args (.ok p) nowIso mtimeIso = .ok info) :
    (args.name ≠ "" → info.app_name = args.name) ∧
    (args.name = "" →
      (∀ w, p.declares "CFBundleName" = some w → info.app_name = w) ∧
      (p.declares "CFBundleName" = none →
        info.app_name = pyReplace (basename args.path) ".app" "")) ∧
    (∀ v, args.app_version = some v → v ≠ "" → info.app_version = v) ∧
    ((args.app_version = none ∨ args.app_version = some "") →
      (∀ w, p.declares "CFBundleShortVersionString" = some w →
        info.app_version = w) ∧
      (p.declares "CFBundleShortVersionString" = none →
        info.app_version = "0.0.0")) ∧
    (∀ v, args.min_sys_version = some v → v ≠ "" → info.app_min_os = v) ∧
    ((args.min_sys_version = none ∨ args.min_sys_version = some "") →
      (∀ w, p.declares "LSMinimumSystemVersion" = some w →
        info.app_min_os = w) ∧
      (p.declares "LSMinimumSystemVersion" = none → info.app_min_os = "10.9")) ∧
    (∀ w, p.declares "CFBundleIdentifier" = some w → info.app_bundle_id = w) ∧
    (p.declares "CFBundleIdentifier" = none →
      info.app_bundle_id = "unknown.bundle.id") := by
  simp only [get_app_info, load_plist] at h
  injection h with h
  subst h
  refine ⟨?_, ?_, ?_, ?_, ?_, ?_, ?_, ?_⟩
  · intro hn
    simp [pyOrStr, hn]
  · intro hn
    constructor
    · intro w hw
      simp [pyOrStr, hn, Plist_get_eq_declares, hw]
    · intro hw
      simp [pyOrStr, hn, Plist_get_eq_declares, hw]
  · intro v hv hne
    simp [pyOrOpt, hv, hne]
  · rintro (hv | hv)
    · exact ⟨fun w hw => by simp [pyOrOpt, hv, Plist_get_eq_declares, hw],
        fun hw => by simp [pyOrOpt, hv, Plist_get_eq_declares, hw]⟩
    · exact ⟨fun w hw => by simp [pyOrOpt, hv, Plist_get_eq_declares, hw],
        fun hw => by simp [pyOrOpt, hv, Plist_get_eq_declares, hw]⟩
  · intro v hv hne
    simp [pyOrOpt, hv, hne]
  · rintro (hv | hv)
    · exact ⟨fun w hw => by simp [pyOrOpt, hv, Plist_get_eq_declares, hw],
        fun hw => by simp [pyOrOpt, hv, Plist_get_eq_declares, hw]⟩
    · exact ⟨fun w hw => by simp [pyOrOpt, hv, Plist_get_eq_declares, hw],
        fun hw => by simp [pyOrOpt, hv, Plist_get_eq_declares, hw]⟩
  · intro w hw
    simp [Plist_get_eq_declares, hw]
  · intro hw
    simp [Plist_get_eq_declares, hw]

/-- Witness fixture: a command line overriding name and version. -/
def overrideArgs : Args :=
  { sampleArgs with name := "Custom Name", app_version := some "9.9" }

/-- Witness for C1: overrides win when non-empty, the manifest wins next,
defaults apply last. -/
theorem field_precedence_witness :
    ∃ info, get_app_info overrideArgs (.ok samplePlist) "T" "U" = .ok info ∧
      info.app_name = "Custom Name" ∧ info.app_version = "9.9" ∧
      info.app_min_os = "10.9" ∧ info.app_bundle_id = "com.example.foobar" := by
  refine ⟨_, rfl, ?_, ?_, ?_, ?_⟩
  all_goals
    obtain ⟨h1, h2, h3, h4, h5, h6, h7, h8⟩ :=
      field_precedence overrideArgs samplePlist "T" "U" _ rfl
  · exact h1 (by decide)
  · exact h3 "9.9" rfl (by decide)
  · exact (h6 (Or.inl rfl)).2 (by decide)
  · exact h7 "com.example.foobar" (by decide)
